import Mathlib

/-!
Shallow embedding of `src/angular-components-master/input/input.component.ts`
(`InputComponent`), a text-input form control that normalizes raw keystroke
input (numeric coercion, max-length clamping, percent decoration), tracks
focus/blur/mouse-down interaction state, and propagates values to a parent
form.

Strings are modelled by Lean `String` (a list of characters); the DOM input
element's `value` property is carried explicitly in the component state
(`displayValue`).  The JavaScript expression `Number(x).toString()` used by
`applyNumericCompliance` is modelled by `jsNumberToString` below; the model is
exact on the inputs the component feeds it in the modes exercised by the
theorems (the empty string and digit-only strings of any length, including
the double-rounding, scientific-notation and overflow behaviour), and maps the
remaining string shapes (fractional, signed, hex/octal/binary and Infinity
literals) to NaN; no theorem in this file depends on those remaining shapes.
-/

/-- Numeric-mode configuration, from
`models/input/numeric-input-options.model` as used by the component:
flags `integer`, `preventEmpty`, `percents`. -/
structure NumericInputOptions where
  integer : Bool
  preventEmpty : Bool
  percents : Bool
deriving DecidableEq, Repr

/-- A JavaScript number as produced by `Number(string)` on the strings this
component feeds it: `NaN`, positive infinity, or a non-negative integral
double value represented exactly as a natural number. -/
inductive JsNum where
  | nan : JsNum
  | inf : JsNum
  | fin : Nat → JsNum
deriving DecidableEq, Repr

/-- ASCII whitespace trimmed by JavaScript `Number(string)` before parsing
(JS also trims some Unicode spaces; those never occur in the theorems). -/
def isJsSpace (c : Char) : Bool :=
  c == ' ' || c == '\t' || c == '\n' || c == '\r' || c == '\x0b' || c == '\x0c'

/-- The character for a decimal digit value `d < 10` (code 48 is the digit 0). -/
def natDigitChar (d : Nat) : Char :=
  Char.ofNat (48 + d)

/-- Decimal digits of `n`, least significant first, with explicit fuel so the
definition reduces inside the kernel; `fuel = n + 1` always suffices. -/
def natDigitsRevAux : Nat → Nat → List Char
  | 0, _ => []
  | fuel + 1, n =>
    if n < 10 then [natDigitChar n]
    else natDigitChar (n % 10) :: natDigitsRevAux fuel (n / 10)

/-- Exact decimal representation of a natural number, as JavaScript prints a
small integral double. -/
def jsNatRepr (n : Nat) : String :=
  String.mk (natDigitsRevAux (n + 1) n).reverse

/-- The value of a list of decimal digit characters, most significant first:
how JavaScript parses a digit-only string. -/
def digitsToNat (l : List Char) : Nat :=
  l.foldl (fun a c => 10 * a + (c.toNat - 48)) 0

/-- Bit length of `n` (`0` for `0`), with explicit fuel so the definition
reduces inside the kernel; `fuel = n + 1` always suffices. -/
def bitlenAux : Nat → Nat → Nat
  | 0, _ => 0
  | fuel + 1, n => if n = 0 then 0 else bitlenAux fuel (n / 2) + 1

/-- Bit length of a natural number. -/
def bitlen (n : Nat) : Nat :=
  bitlenAux (n + 1) n

/-- Round a natural number to the nearest IEEE-754 binary64 value
(round-to-nearest, ties-to-even), the conversion JavaScript `Number`
performs on an integer-valued input; values at or beyond the overflow
threshold become infinity. -/
def roundNatToDouble (n : Nat) : JsNum :=
  if n < 2 ^ 53 then JsNum.fin n
  else
    let e := bitlen n - 53
    let q := n / 2 ^ e
    let r := n % 2 ^ e
    let half := 2 ^ (e - 1)
    let m := if r > half || (r == half && q % 2 == 1) then q + 1 else q
    let v := m * 2 ^ e
    if v ≥ 2 ^ 1024 then JsNum.inf else JsNum.fin v

/-- Greatest integer that rounds to the double value `N` (for `N ≥ 2^53`):
the upper boundary of the rounding interval, inclusive exactly when the
significand of `N` is even (ties-to-even). -/
def roundIntervalHi (N : Nat) : Nat :=
  let e := bitlen N - 53
  let m := N / 2 ^ e
  if m % 2 == 0 then N + 2 ^ (e - 1) else N + 2 ^ (e - 1) - 1

/-- Least integer that rounds to the double value `N` (for `N ≥ 2^53`),
accounting for the smaller spacing below a power-of-two boundary. -/
def roundIntervalLo (N : Nat) : Nat :=
  let e := bitlen N - 53
  let m := N / 2 ^ e
  if m == 2 ^ 52 then
    if e == 1 then N else N - 2 ^ (e - 2)
  else
    if m % 2 == 0 then N - 2 ^ (e - 1) else N - 2 ^ (e - 1) + 1

/-- Largest power-of-ten scale `10^j` having a multiple inside `[lo, hi]`:
the trailing-zero count of the shortest decimal that rounds back to the
double (the `k` minimal condition of the ECMAScript `Number::toString`
algorithm).  `340` bounds every finite double's decimal exponent. -/
def findScale (lo hi : Nat) : Nat :=
  (((List.range 341).reverse).find? (fun j => (hi / 10 ^ j) * 10 ^ j ≥ lo)).getD 0

/-- Among the multiples of `10^j` inside `[lo, hi]`, the multiplier whose
multiple is closest to `N`, ties going to the even multiplier: the choice of
`s` in the ECMAScript `Number::toString` algorithm. -/
def pickMultiplier (j lo hi N : Nat) : Nat :=
  let p := 10 ^ j
  let a := (lo + p - 1) / p
  let b := hi / p
  let q := N / p
  let r := N % p
  let best := if r * 2 > p then q + 1
    else if r * 2 < p then q
    else if q % 2 == 1 then q + 1 else q
  max a (min b best)

/-- ECMAScript `Number::toString` (radix 10) on the doubles this model
produces: `NaN`, `Infinity`, or a non-negative integral double.  Values below
`2^53` print as their exact decimal expansion; larger values print the
shortest decimal that rounds back to the same double, in positional notation
below `10^21` and in exponential notation (`d.ddd…e+X`) from `10^21` on. -/
def jsDoubleToString (x : JsNum) : String :=
  match x with
  | JsNum.nan => "NaN"
  | JsNum.inf => "Infinity"
  | JsNum.fin N =>
    if N < 2 ^ 53 then jsNatRepr N
    else
      let lo := roundIntervalLo N
      let hi := roundIntervalHi N
      let j := findScale lo hi
      let sv := pickMultiplier j lo hi N
      let c := sv * 10 ^ j
      let digits := jsNatRepr c
      if digits.length ≤ 21 then digits
      else
        let sd := jsNatRepr sv
        let mantissa :=
          if sd.length == 1 then sd
          else String.mk (sd.data.take 1) ++ "." ++ String.mk (sd.data.drop 1)
        mantissa ++ "e+" ++ jsNatRepr (digits.length - 1)

/-- Leading and trailing JavaScript whitespace removed, as `Number(string)`
does before parsing. -/
def trimJsSpaces (l : List Char) : List Char :=
  ((l.dropWhile isJsSpace).reverse.dropWhile isJsSpace).reverse

/-- JavaScript `Number(string)`: the empty (or all-whitespace) string is `0`,
a digit-only string is parsed and rounded to a double, and every other shape
is modelled as `NaN` (exact for the non-numeric strings the theorems use;
fractional, signed, hex/octal/binary, exponent and Infinity literals are
outside the modelled domain and never reached by the theorems). -/
def jsNumberOfString (s : String) : JsNum :=
  let t := trimJsSpaces s.data
  if t.isEmpty then JsNum.fin 0
  else if t.all Char.isDigit then roundNatToDouble (digitsToNat t)
  else JsNum.nan

/-- The composite `Number(s).toString()` from `applyNumericCompliance`. -/
def jsNumberToString (s : String) : String :=
  jsDoubleToString (jsNumberOfString s)

/-- Does a string consist only of decimal digit characters? -/
def allDigits (s : String) : Bool :=
  s.data.all Char.isDigit

/-- Component state.  Fields mirror the members of `InputComponent` used by
value processing and interaction tracking: the `maxLength` and `numeric`
inputs, the public `focused` and `invalid` flags, the private `currentValue`
and occurrence flags, whether `registerOnChange` installed a callback
(`propagateChange` truthiness), and the DOM element's `value` property
(`displayValue`).  `lastDecorate` is a ghost field recording the `decorate`
argument of the most recent `setInputValue` call, used only to state the
decoration policy. -/
structure InputState where
  maxLength : Nat
  numeric : Option NumericInputOptions
  focused : Bool
  invalid : Bool
  currentValue : String
  displayValue : String
  mouseDownOccured : Bool
  inputBlurOccured : Bool
  inputFocusOccured : Bool
  hasPropagateChange : Bool
  lastDecorate : Bool
deriving DecidableEq, Repr

/-- `applyNumericCompliance` (input.component.ts lines 157-170): with the
`integer` flag, remove every character that is not a digit (the regex
replace of `[^\d]` by the empty string); then, when the result is non-empty
or `preventEmpty` is set, re-stringify it through JavaScript numeric
coercion (`Number(processed).toString()`). -/
def applyNumericCompliance (value : String) (numericOptions : NumericInputOptions) : String :=
  let processed := value
  let processed :=
    if numericOptions.integer then String.mk (processed.data.filter Char.isDigit)
    else processed
  if processed.length != 0 || numericOptions.preventEmpty then jsNumberToString processed
  else processed

/-- `toPercentString` (lines 264-268): append a percent sign to a non-empty
value; the empty value maps to the empty string. -/
def toPercentString (value : String) : String :=
  if value.length != 0 then value ++ "%" else ""

/-- `getDecoratedValue` (lines 197-203): when a numeric configuration with
the `percents` flag is present and the value is non-empty, decorate it as a
percent string; otherwise return the value unchanged.  The `config.numeric`
optional field is the `Option` argument. -/
def getDecoratedValue (value : String) (numeric : Option NumericInputOptions) : String :=
  match numeric with
  | some opts => if opts.percents && value.length != 0 then toPercentString value else value
  | none => value

/-- `setInputValue` (lines 256-262): write either the decorated or the plain
value into the DOM input element (`displayValue`).  The ghost field
`lastDecorate` records the `decorate` argument. -/
def setInputValue (s : InputState) (value : String) (decorate : Bool) : InputState :=
  if decorate then
    { s with displayValue := getDecoratedValue value s.numeric, lastDecorate := true }
  else
    { s with displayValue := value, lastDecorate := false }

/-- `processInputValue` (lines 240-254): clamp to `maxLength` characters when
`maxLength` is truthy (non-zero) and exceeded (`substr(0, maxLength)`), then
apply numeric compliance when a numeric configuration is present. -/
def processInputValue (s : InputState) (value : String) : String :=
  let processed := value
  let processed :=
    if s.maxLength != 0 && processed.length > s.maxLength then
      String.mk (processed.data.take s.maxLength)
    else processed
  match s.numeric with
  | some opts => applyNumericCompliance processed opts
  | none => processed

/-- The `map` stage at line 221 of the `valueStream$` pipeline: a `null` or
`undefined` value (modelled `none`) becomes the empty string, anything else
passes through `toString()` (the identity on strings). -/
def jsToString (raw : Option String) : String :=
  match raw with
  | none => ""
  | some v => v

/-- One event of the `valueStream$` pipeline from `initializeSubscriptions`
(lines 218-233): null-coalescing `map`, `processInputValue` `map`, the
`tap` writing the (possibly decorated, decorate only if not in focus) value
back to the input element, the `filter` dropping values equal to
`currentValue`, the `tap` storing `currentValue`, the `tap` invoking
`propagateChange` when registered, and the final `valueChange` emission.
Returns the new state, the value passed to `propagateChange` (or `none`),
and the value emitted on `valueChange` (or `none`).  The `cdr` side effects
have no observable state here and are omitted. -/
def processValueEvent (s : InputState) (rawValue : Option String) :
    InputState × Option String × Option String :=
  let value := jsToString rawValue
  let processed := processInputValue s value
  let s1 := setInputValue s processed (!s.focused)
  if s1.currentValue == processed then (s1, none, none)
  else
    let s2 := { s1 with currentValue := processed }
    (s2, if s.hasPropagateChange then some processed else none, some processed)

/-- `writeValue` (lines 112-114) pushes the incoming value onto
`valueStream$`, so it behaves as one value event. -/
def writeValue (s : InputState) (value : Option String) :
    InputState × Option String × Option String :=
  processValueEvent s value

/-- The `focusReceived` local of `commitProperties` (line 175). -/
def commitFocusReceived (s : InputState) : Bool :=
  s.mouseDownOccured || s.inputFocusOccured

/-- The `focusStateChanged` local of `commitProperties` (line 176). -/
def commitFocusStateChanged (s : InputState) : Bool :=
  (s.focused != commitFocusReceived s) || s.inputBlurOccured

/-- The `decorate` local of `commitProperties` (line 181), evaluated after
`this.focused` has been set to `focusReceived`. -/
def commitDecorate (s : InputState) : Bool :=
  !commitFocusReceived s && !s.invalid

/-- `commitProperties` (lines 172-195): when any of the mouse-down, focus or
blur occurrence flags is set, recompute the `focused` flag and, if the focus
state changed, write the current value back to the input element (decorated
only when unfocused and valid); finally clear all three occurrence flags.
The native `focus()` call and `detectChanges()` have no observable state
here and are omitted. -/
def commitProperties (s : InputState) : InputState :=
  if s.mouseDownOccured || s.inputFocusOccured || s.inputBlurOccured then
    let s1 :=
      if commitFocusStateChanged s then
        setInputValue { s with focused := commitFocusReceived s }
          s.currentValue (commitDecorate s)
      else s
    { s1 with mouseDownOccured := false, inputBlurOccured := false, inputFocusOccured := false }
  else s

/-- `ngDoCheck` (lines 90-100): the displayed error string.  The bound
control is `none` when no `FormControlName` (or no control) is attached;
`some none` models a control whose `errors` object is null; `some (some
errs)` models a control with validation errors, as the association list of
error keys to error payloads (`Object.keys` order, keys unique).
`getErrorMessage` stands for `FormControlErrorFormatter.getErrorMessage`,
whose source is not part of this repository; per the spec it formats one
error into a message, so it is taken as an arbitrary function.  The messages
are joined with the `'\b'` separator of line 97. -/
def ngDoCheck (getErrorMessage : String → String → String)
    (control : Option (Option (List (String × String)))) : String :=
  match control with
  | some (some errs) => String.intercalate "\x08" (errs.map (fun kv => getErrorMessage kv.1 kv.2))
  | _ => ""

/-- Invariant relating the displayed value to the externally propagated one:
they are equal, or the component is unfocused and the display is exactly the
decorated propagated value. -/
def displayInvariant (s : InputState) : Prop :=
  s.displayValue = s.currentValue ∨
    (s.focused = false ∧ s.displayValue = getDecoratedValue s.currentValue s.numeric)

theorem isDigit_natDigitChar {d : Nat} (h : d < 10) : (natDigitChar d).isDigit = true := by
  interval_cases d <;> decide

theorem isDigit_mem_natDigitsRevAux :
    ∀ (fuel n : Nat), ∀ c ∈ natDigitsRevAux fuel n, c.isDigit = true := by
  intro fuel
  induction fuel with
  | zero => intro n c hc; simp [natDigitsRevAux] at hc
  | succ fuel ih =>
    intro n c hc
    rw [natDigitsRevAux] at hc
    split at hc
    · next h =>
      simp only [List.mem_singleton] at hc
      exact hc ▸ isDigit_natDigitChar h
    · next h =>
      rcases List.mem_cons.mp hc with h1 | h1
      · exact h1 ▸ isDigit_natDigitChar (Nat.mod_lt _ (by omega))
      · exact ih _ _ h1

theorem allDigits_jsNatRepr (n : Nat) : allDigits (jsNatRepr n) = true := by
  simp only [allDigits, jsNatRepr, List.all_eq_true]
  intro c hc
  exact isDigit_mem_natDigitsRevAux _ _ c (List.mem_reverse.mp hc)

theorem length_natDigitsRevAux_le :
    ∀ (fuel n k : Nat), 1 ≤ k → n < 10 ^ k → (natDigitsRevAux fuel n).length ≤ k := by
  intro fuel
  induction fuel with
  | zero => intro n k _ _; simp [natDigitsRevAux]
  | succ fuel ih =>
    intro n k hk hn
    rw [natDigitsRevAux]
    split
    · simpa using hk
    · next h =>
      have hk2 : 2 ≤ k := by
        by_contra hcon
        have : k = 1 := by omega
        subst this
        simp at hn
        omega
      have hdiv : n / 10 < 10 ^ (k - 1) := by
        rw [Nat.div_lt_iff_lt_mul (by norm_num)]
        calc n < 10 ^ k := hn
        _ = 10 ^ (k - 1) * 10 := by
            rw [← pow_succ]
            congr 1
            omega
      have := ih (n / 10) (k - 1) (by omega) hdiv
      simp only [List.length_cons]
      omega

theorem length_jsNatRepr_le {n k : Nat} (hk : 1 ≤ k) (hn : n < 10 ^ k) :
    (jsNatRepr n).length ≤ k := by
  simp only [jsNatRepr, String.length, List.length_reverse]
  exact length_natDigitsRevAux_le _ n k hk hn

theorem toNat_bounds_of_isDigit {c : Char} (h : c.isDigit = true) :
    48 ≤ c.toNat ∧ c.toNat ≤ 57 := by
  simp only [Char.isDigit, ge_iff_le, Bool.and_eq_true, decide_eq_true_eq] at h
  obtain ⟨h1, h2⟩ := h
  rw [UInt32.le_def, BitVec.le_def] at h1 h2
  exact ⟨h1, h2⟩

theorem digit_val_le_nine {c : Char} (h : c.isDigit = true) : c.toNat - 48 ≤ 9 := by
  have := toNat_bounds_of_isDigit h
  omega

theorem foldl_digits_lt (l : List Char) :
    ∀ a : Nat, (∀ c ∈ l, c.isDigit = true) →
      l.foldl (fun a c => 10 * a + (c.toNat - 48)) a < (a + 1) * 10 ^ l.length := by
  induction l with
  | nil => intro a _; simp only [List.foldl_nil, List.length_nil, pow_zero, mul_one]; omega
  | cons c t ih =>
    intro a h
    have hc : c.toNat - 48 ≤ 9 := digit_val_le_nine (h c (List.mem_cons_self c t))
    have ht : ∀ x ∈ t, x.isDigit = true := fun x hx => h x (List.mem_cons_of_mem c hx)
    simp only [List.foldl_cons, List.length_cons]
    calc t.foldl (fun a c => 10 * a + (c.toNat - 48)) (10 * a + (c.toNat - 48))
        < (10 * a + (c.toNat - 48) + 1) * 10 ^ t.length := ih _ ht
      _ ≤ ((a + 1) * 10) * 10 ^ t.length := by
          apply Nat.mul_le_mul_right
          omega
      _ = (a + 1) * 10 ^ (t.length + 1) := by ring

theorem digitsToNat_lt (l : List Char) (h : ∀ c ∈ l, c.isDigit = true) :
    digitsToNat l < 10 ^ l.length := by
  have := foldl_digits_lt l 0 h
  simpa [digitsToNat] using this

theorem not_isJsSpace_of_isDigit {c : Char} (h : c.isDigit = true) : isJsSpace c = false := by
  have h48 := (toNat_bounds_of_isDigit h).1
  simp only [isJsSpace, Bool.or_eq_false_iff, beq_eq_false_iff_ne]
  refine ⟨⟨⟨⟨⟨?_, ?_⟩, ?_⟩, ?_⟩, ?_⟩, ?_⟩ <;>
    (rintro rfl; revert h48; decide)

theorem dropWhile_isJsSpace_of_digits (l : List Char) (h : ∀ c ∈ l, c.isDigit = true) :
    l.dropWhile isJsSpace = l := by
  cases l with
  | nil => rfl
  | cons c t =>
    rw [List.dropWhile_cons]
    simp [not_isJsSpace_of_isDigit (h c (List.mem_cons_self c t))]

theorem trimJsSpaces_of_digits (l : List Char) (h : ∀ c ∈ l, c.isDigit = true) :
    trimJsSpaces l = l := by
  unfold trimJsSpaces
  rw [dropWhile_isJsSpace_of_digits l h,
    dropWhile_isJsSpace_of_digits l.reverse (fun c hc => h c (List.mem_reverse.mp hc)),
    List.reverse_reverse]

theorem jsNumberToString_digits (l : List Char) (h : ∀ c ∈ l, c.isDigit = true) :
    jsNumberToString (String.mk l) = jsDoubleToString (roundNatToDouble (digitsToNat l)) := by
  unfold jsNumberToString jsNumberOfString
  simp only [trimJsSpaces_of_digits l h]
  cases l with
  | nil => simp [roundNatToDouble, digitsToNat, Nat.pos_pow_of_pos]
  | cons c t =>
    rw [if_neg (by simp), if_pos]
    simp only [List.all_eq_true]
    exact fun c hc => h c hc

theorem jsNumberToString_small_digits (l : List Char) (h : ∀ c ∈ l, c.isDigit = true)
    (hlen : l.length ≤ 15) :
    jsNumberToString (String.mk l) = jsNatRepr (digitsToNat l) := by
  rw [jsNumberToString_digits l h]
  have hlt : digitsToNat l < 2 ^ 53 := by
    have h1 : digitsToNat l < 10 ^ l.length := digitsToNat_lt l h
    have h2 : (10 : Nat) ^ l.length ≤ 10 ^ 15 := Nat.pow_le_pow_right (by norm_num) hlen
    have h3 : (10 : Nat) ^ 15 < 2 ^ 53 := by norm_num
    omega
  rw [roundNatToDouble, if_pos hlt, jsDoubleToString, if_pos hlt]

theorem mem_filter_isDigit {l : List Char} {c : Char} (hc : c ∈ l.filter Char.isDigit) :
    c.isDigit = true :=
  List.of_mem_filter hc

theorem applyNumericCompliance_processed (value : String) (o : NumericInputOptions)
    (hi : o.integer = true) :
    applyNumericCompliance value o =
      (if (String.mk (value.data.filter Char.isDigit)).length != 0 || o.preventEmpty then
        jsNumberToString (String.mk (value.data.filter Char.isDigit))
      else String.mk (value.data.filter Char.isDigit)) := by
  unfold applyNumericCompliance
  rw [hi]
  simp

/-- Claim C1 (amended): in integer mode, `applyNumericCompliance` yields a
string of digit characters only, provided at most 15 digit characters remain
after stripping (so the numeric value is exactly representable as a double
and prints in positional notation); longer digit runs can re-stringify into
scientific notation containing non-digits. -/
theorem applyNumericCompliance_integer_allDigits (v : String) (o : NumericInputOptions)
    (hint : o.integer = true)
    (hlen : (v.data.filter Char.isDigit).length ≤ 15) :
    allDigits (applyNumericCompliance v o) = true := by
  rw [applyNumericCompliance_processed v o hint]
  by_cases hb : ((String.mk (v.data.filter Char.isDigit)).length != 0 || o.preventEmpty) = true
  · simp only [hb, if_true]
    rw [jsNumberToString_small_digits _ (fun c hc => mem_filter_isDigit hc) hlen]
    exact allDigits_jsNatRepr _
  · simp only [Bool.not_eq_true] at hb
    simp only [hb, Bool.false_eq_true, if_false, allDigits, List.all_eq_true]
    exact fun c hc => mem_filter_isDigit hc

theorem applyNumericCompliance_integer_allDigits_witness :
    allDigits (applyNumericCompliance "x4y2" ⟨true, false, false⟩) = true :=
  applyNumericCompliance_integer_allDigits "x4y2" ⟨true, false, false⟩ rfl (by decide)

set_option maxRecDepth 100000 in
/-- Claim C1 counterexample: the 22-digit input `10^21` survives the
digit-only strip unchanged, but `Number(x).toString()` re-stringifies it in
scientific notation, so the sanitized result contains the non-digit
characters `e` and `+`. -/
theorem applyNumericCompliance_integer_allDigits_counterexample :
    applyNumericCompliance "1000000000000000000000" ⟨true, false, false⟩ = "1e+21" ∧
      allDigits (applyNumericCompliance "1000000000000000000000" ⟨true, false, false⟩) = false := by
  constructor <;> decide

theorem jsNumberToString_empty : jsNumberToString "" = "0" := by decide

/-- Claim C9 (amended): in integer mode, processing an input containing no
digit characters yields the string `0` when `preventEmpty` is set and the
empty string otherwise; with the `integer` flag off, such input instead
reaches numeric coercion unstripped and can come back as `NaN`. -/
theorem applyNumericCompliance_preventEmpty (o : NumericInputOptions) (v : String)
    (hint : o.integer = true)
    (hnd : v.data.all (fun c => !c.isDigit) = true) :
    applyNumericCompliance v o = if o.preventEmpty then "0" else "" := by
  have hfil : v.data.filter Char.isDigit = [] := by
    rw [List.filter_eq_nil_iff]
    intro c hc
    have := List.all_eq_true.mp hnd c hc
    simp only [Bool.not_eq_true'] at this
    simp [this]
  rw [applyNumericCompliance_processed v o hint]
  simp only [hfil]
  cases hpe : o.preventEmpty with
  | true => simp [jsNumberToString_empty]
  | false => simp

theorem applyNumericCompliance_preventEmpty_witness :
    applyNumericCompliance "abc" ⟨true, true, false⟩ = "0" :=
  applyNumericCompliance_preventEmpty ⟨true, true, false⟩ "abc" rfl (by decide)

/-- Claim C9 counterexample: with a numeric configuration whose `integer`
flag is off and `preventEmpty` on, the digit-free input `abc` is coerced to
`NaN` and stringified as `NaN`, not `0`. -/
theorem applyNumericCompliance_preventEmpty_counterexample :
    ("abc".data.all (fun c => !c.isDigit)) = true ∧
      applyNumericCompliance "abc" ⟨false, true, false⟩ = "NaN" := by
  constructor <;> decide

/-- Claim C2 (confirmed): with the `percents` flag set, decorating a
non-empty value appends exactly one trailing percent sign, and decorating
the empty value appends nothing. -/
theorem getDecoratedValue_percents (o : NumericInputOptions) (v : String)
    (hp : o.percents = true) :
    (v ≠ "" → getDecoratedValue v (some o) = v ++ "%") ∧
    getDecoratedValue "" (some o) = "" := by
  constructor
  · intro hv
    obtain ⟨l⟩ := v
    have hl : l ≠ [] := fun h => hv (by rw [h])
    simp [getDecoratedValue, toPercentString, hp, String.length, List.length_eq_zero, hl]
  · simp [getDecoratedValue]

theorem getDecoratedValue_percents_witness :
    getDecoratedValue "42" (some ⟨true, false, true⟩) = "42" ++ "%" :=
  (getDecoratedValue_percents ⟨true, false, true⟩ "42" rfl).1 (by decide)

theorem processInputValue_def (s : InputState) (v : String) :
    processInputValue s v =
      (match s.numeric with
       | some opts => applyNumericCompliance
          (if s.maxLength != 0 && v.length > s.maxLength then
            String.mk (v.data.take s.maxLength) else v) opts
       | none =>
          (if s.maxLength != 0 && v.length > s.maxLength then
            String.mk (v.data.take s.maxLength) else v)) := by
  unfold processInputValue
  rfl

theorem length_clamped_le (s : InputState) (v : String) (hm : 0 < s.maxLength) :
    (if s.maxLength != 0 && v.length > s.maxLength then String.mk (v.data.take s.maxLength)
     else v).length ≤ s.maxLength := by
  split
  · simp only [String.length, List.length_take]
    omega
  · next h =>
    simp only [bne_iff_ne, ne_eq, Bool.and_eq_true, decide_eq_true_eq, not_and, not_lt] at h
    exact h (by omega)

/-- Claim C6 (amended): with a positive `maxLength`, the processed value has
length at most `maxLength` when no numeric configuration is set, and also in
integer mode provided the input holds at most 15 digit characters; with the
`integer` flag off, numeric coercion can lengthen a clamped value (for
example to `NaN`) past `maxLength`. -/
theorem processInputValue_length_le (s : InputState) (v : String)
    (hm : 0 < s.maxLength) :
    (s.numeric = none → (processInputValue s v).length ≤ s.maxLength) ∧
    (∀ o, s.numeric = some o → o.integer = true →
      (v.data.filter Char.isDigit).length ≤ 15 →
      (processInputValue s v).length ≤ s.maxLength) := by
  have hcl := length_clamped_le s v hm
  constructor
  · intro hn
    rw [processInputValue_def, hn]
    exact hcl
  · intro o hn hint hdig
    set clamped := (if s.maxLength != 0 && v.length > s.maxLength then
      String.mk (v.data.take s.maxLength) else v) with hclamped
    have hsub : List.Sublist (clamped.data.filter Char.isDigit) (v.data.filter Char.isDigit) := by
      rw [hclamped]
      split
      · exact List.Sublist.filter _ (List.take_sublist _ _)
      · exact List.Sublist.refl _
    have hdig2 : (clamped.data.filter Char.isDigit).length ≤ 15 :=
      le_trans hsub.length_le hdig
    have hdlen : (clamped.data.filter Char.isDigit).length ≤ s.maxLength :=
      le_trans (List.length_filter_le _ _) hcl
    rw [processInputValue_def, hn]
    rw [← hclamped]
    show (applyNumericCompliance clamped o).length ≤ s.maxLength
    rw [applyNumericCompliance_processed clamped o hint]
    split
    · rw [jsNumberToString_small_digits _ (fun c hc => mem_filter_isDigit hc) hdig2]
      by_cases hnil : clamped.data.filter Char.isDigit = []
      · rw [hnil]
        simpa [digitsToNat, jsNatRepr, natDigitsRevAux, String.length] using hm
      · have h1 : 1 ≤ (clamped.data.filter Char.isDigit).length :=
          List.length_pos.mpr hnil
        have h2 := length_jsNatRepr_le h1
          (digitsToNat_lt _ (fun c hc => mem_filter_isDigit hc))
        omega
    · simpa only [String.length] using hdlen

theorem processInputValue_length_le_witness :
    (processInputValue ⟨2, none, false, false, "", "", false, false, false, false, false⟩
      "abc").length ≤ 2 :=
  (processInputValue_length_le
    ⟨2, none, false, false, "", "", false, false, false, false, false⟩ "abc"
    (by decide)).1 rfl

/-- Claim C6 counterexample: with `maxLength = 1` and a numeric
configuration whose `integer` flag is off, the input `ab` is clamped to `a`
but numeric coercion re-stringifies it as `NaN`, whose length 3 exceeds
`maxLength`. -/
theorem processInputValue_length_le_counterexample :
    0 < (1 : Nat) ∧
      ¬((processInputValue
          ⟨1, some ⟨false, false, false⟩, false, false, "", "", false, false, false, false, false⟩
          "ab").length ≤ 1) := by
  constructor <;> decide

theorem currentValue_setInputValue (s : InputState) (v : String) (d : Bool) :
    (setInputValue s v d).currentValue = s.currentValue := by
  unfold setInputValue
  split <;> rfl

theorem numeric_setInputValue (s : InputState) (v : String) (d : Bool) :
    (setInputValue s v d).numeric = s.numeric := by
  unfold setInputValue
  split <;> rfl

theorem focused_setInputValue (s : InputState) (v : String) (d : Bool) :
    (setInputValue s v d).focused = s.focused := by
  unfold setInputValue
  split <;> rfl

/-- Claim C3 (confirmed): a value event whose processed value equals the
stored `currentValue` is dropped by the pipeline's `filter` stage, so it
neither invokes `propagateChange` nor emits on `valueChange`; conversely, a
propagation or emission only happens when the processed value differs from
the stored one. -/
theorem processValueEvent_no_propagation_when_unchanged (s : InputState) (raw : Option String) :
    (processInputValue s (jsToString raw) = s.currentValue →
      (processValueEvent s raw).2.1 = none ∧ (processValueEvent s raw).2.2 = none) ∧
    ((processValueEvent s raw).2.1 ≠ none ∨ (processValueEvent s raw).2.2 ≠ none →
      processInputValue s (jsToString raw) ≠ s.currentValue) := by
  constructor
  · intro h
    unfold processValueEvent
    rw [if_pos (by rw [currentValue_setInputValue, h]; exact beq_self_eq_true _)]
    exact ⟨rfl, rfl⟩
  · intro h heq
    rcases h with h | h <;>
    · apply h
      unfold processValueEvent
      rw [if_pos (by rw [currentValue_setInputValue, heq]; exact beq_self_eq_true _)]

theorem processValueEvent_no_propagation_when_unchanged_witness :
    (processValueEvent ⟨0, none, false, false, "7", "7", false, false, false, true, false⟩
      (some "7")).2.1 = none ∧
    (processValueEvent ⟨0, none, false, false, "7", "7", false, false, false, true, false⟩
      (some "7")).2.2 = none :=
  (processValueEvent_no_propagation_when_unchanged
    ⟨0, none, false, false, "7", "7", false, false, false, true, false⟩ (some "7")).1 (by decide)

theorem setInputValue_eq (s : InputState) (v : String) (d : Bool) :
    setInputValue s v d =
      { s with displayValue := if d then getDecoratedValue v s.numeric else v,
               lastDecorate := d } := by
  unfold setInputValue
  cases d <;> simp

/-- Claim C4 (confirmed): after any value event, and across any
`commitProperties` run, the displayed input-element value and the propagated
`currentValue` are equal, or the component is unfocused and the display is
exactly the decorated `currentValue`. -/
theorem display_matches_currentValue :
    (∀ (s : InputState) (raw : Option String),
      displayInvariant (processValueEvent s raw).1) ∧
    (∀ s : InputState, displayInvariant s → displayInvariant (commitProperties s)) := by
  constructor
  · intro s raw
    unfold processValueEvent
    dsimp only
    split
    · next heq =>
      rw [currentValue_setInputValue, beq_iff_eq] at heq
      rw [setInputValue_eq]
      unfold displayInvariant
      dsimp
      cases hf : s.focused with
      | true => left; simp [heq]
      | false => right; simp [heq]
    · next heq =>
      rw [setInputValue_eq]
      unfold displayInvariant
      dsimp
      cases hf : s.focused with
      | true => left; simp
      | false => right; simp
  · intro s hs
    unfold commitProperties
    split
    · split
      · rw [setInputValue_eq]
        unfold displayInvariant
        dsimp
        cases hd : commitDecorate s with
        | true =>
          right
          have hfr : commitFocusReceived s = false := by
            rcases Bool.and_eq_true_iff.mp hd with ⟨h1, _⟩
            simpa using h1
          simp [hfr]
        | false => left; simp
      · exact hs
    · exact hs

theorem display_matches_currentValue_witness :
    displayInvariant (commitProperties
      ⟨0, none, true, false, "5", "5", false, true, false, false, false⟩) :=
  display_matches_currentValue.2
    ⟨0, none, true, false, "5", "5", false, true, false, false, false⟩ (Or.inl rfl)

/-- Claim C5 (confirmed): the `decorate` argument passed to `setInputValue`
(recorded in the ghost field `lastDecorate`) is true only when the `focused`
flag is false, both in the value-stream `tap` and in a `commitProperties`
run that writes the input element. -/
theorem decorate_only_when_unfocused :
    (∀ (s : InputState) (raw : Option String),
      (processValueEvent s raw).1.lastDecorate = true →
      (processValueEvent s raw).1.focused = false) ∧
    (∀ s : InputState,
      (s.mouseDownOccured || s.inputFocusOccured || s.inputBlurOccured) = true →
      commitFocusStateChanged s = true →
      (commitProperties s).lastDecorate = true → (commitProperties s).focused = false) := by
  constructor
  · intro s raw
    unfold processValueEvent
    dsimp only
    split <;>
    · rw [setInputValue_eq]
      dsimp
      intro h
      simpa using h
  · intro s hflags hch
    unfold commitProperties
    rw [if_pos hflags, if_pos hch, setInputValue_eq]
    dsimp
    cases hd : commitDecorate s with
    | true =>
      intro _
      rcases Bool.and_eq_true_iff.mp hd with ⟨h1, _⟩
      simpa using h1
    | false => intro h; exact absurd h (by simp)

theorem decorate_only_when_unfocused_witness :
    (commitProperties
      ⟨0, none, true, false, "5", "5", false, true, false, false, false⟩).focused = false :=
  decorate_only_when_unfocused.2
    ⟨0, none, true, false, "5", "5", false, true, false, false, false⟩
    (by decide) (by decide) (by decide)

/-- Claim C10 (confirmed): a `commitProperties` run in which at least one
occurrence flag was set clears all three occurrence flags and leaves
`focused` equal to whether a mouse-down or focus occurrence was present in
the batch (so a blur-only batch unfocuses the component). -/
theorem commitProperties_flags (s : InputState)
    (h : (s.mouseDownOccured || s.inputFocusOccured || s.inputBlurOccured) = true) :
    (commitProperties s).mouseDownOccured = false ∧
    (commitProperties s).inputBlurOccured = false ∧
    (commitProperties s).inputFocusOccured = false ∧
    (commitProperties s).focused = (s.mouseDownOccured || s.inputFocusOccured) := by
  unfold commitProperties
  rw [if_pos h]
  split
  · rw [setInputValue_eq]
    exact ⟨rfl, rfl, rfl, rfl⟩
  · next hch =>
    refine ⟨rfl, rfl, rfl, ?_⟩
    show s.focused = (s.mouseDownOccured || s.inputFocusOccured)
    simp only [Bool.not_eq_true, commitFocusStateChanged, commitFocusReceived] at hch
    cases hf : s.focused <;> cases hm : s.mouseDownOccured <;>
      cases hf2 : s.inputFocusOccured <;> simp_all

theorem commitProperties_flags_witness :
    (commitProperties
      ⟨0, none, true, false, "v", "v", false, true, false, false, false⟩).mouseDownOccured
        = false ∧
    (commitProperties
      ⟨0, none, true, false, "v", "v", false, true, false, false, false⟩).inputBlurOccured
        = false ∧
    (commitProperties
      ⟨0, none, true, false, "v", "v", false, true, false, false, false⟩).inputFocusOccured
        = false ∧
    (commitProperties
      ⟨0, none, true, false, "v", "v", false, true, false, false, false⟩).focused = false :=
  commitProperties_flags
    ⟨0, none, true, false, "v", "v", false, true, false, false, false⟩ (by decide)

/-- Claim C7 (confirmed): on a change-detection check, a bound control with
validation errors yields the formatted message of every error key joined
into one display string, and the error field is empty when no control is
bound or the control has no errors.  The formatter
`FormControlErrorFormatter.getErrorMessage` is not part of this repository,
so it is quantified over. -/
theorem ngDoCheck_error_string (getErrorMessage : String → String → String)
    (errs : List (String × String)) :
    ngDoCheck getErrorMessage (some (some errs)) =
      String.intercalate "\x08" (errs.map (fun kv => getErrorMessage kv.1 kv.2)) ∧
    ngDoCheck getErrorMessage none = "" ∧
    ngDoCheck getErrorMessage (some none) = "" :=
  ⟨rfl, rfl, rfl⟩

/-- Claim C8 (confirmed): a `null`/`undefined` value (modelled `none`)
entering `writeValue` or the value stream is converted to the empty string
by the pipeline's first `map` stage before any processing, so every event is
processed exactly as its string coercion. -/
theorem null_converted_to_empty (s : InputState) :
    writeValue s none = writeValue s (some "") ∧
    (∀ raw : Option String, processValueEvent s raw = processValueEvent s (some (jsToString raw))) := by
  refine ⟨rfl, fun raw => ?_⟩
  cases raw <;> rfl
